import Mathlib

/-!
Verification of the station selection library (src/index.ts).

The station catalogue (imported from `stations.json`, an external data
file) and the shuffle primitive (the `array-shuffle` package) are inputs
from outside the source: functions reading them are parameterised by a
catalogue list and by a shuffle function respectively, and theorems
assume only the shuffle's documented contract, namely that it returns a
permutation of its input.  Likewise `String.prototype.localeCompare`
with the en-GB locale is an external capability, modelled as an integer
comparator parameter.
-/

/-- Transport modes (`enum Mode` in src/index.ts). -/
inductive Mode where
  | LU
  | DLR
  | NR
deriving DecidableEq, Repr

/-- Sides of the Thames (`enum RiverBank` in src/index.ts). -/
inductive RiverBank where
  | NORTH
  | SOUTH
deriving DecidableEq, Repr

/-- A station record (`class Station` in src/index.ts). -/
structure Station where
  name : String
  disambiguation : Option String
  localAuthority : String
  lines : List String
  zones : List Int
  modes : List Mode
  riverBanks : List RiverBank
deriving DecidableEq, Repr

/-- `Station.prototype.toString`: the identity string of a station, the
name followed by the parenthesised disambiguation when present. -/
def Station.toString (s : Station) : String :=
  s.name ++ (match s.disambiguation with
    | none => ""
    | some d => " (" ++ d ++ ")")

/-- `tflLines`: all TfL lines in the order to be displayed. -/
def tflLines : List String :=
  ["Bakerloo", "Central", "Circle", "District", "Hammersmith & City",
   "Jubilee", "Metropolitan", "Northern", "Piccadilly", "Victoria",
   "Waterloo & City", "DLR", "Overground", "Elizabeth line", "Tram"]

/-- `getSortIndex`: the position of a line in `tflLines`, or
`tflLines.length` when absent (JS `indexOf` returns −1 for a missing
element, which the source maps to `tflLines.length`). -/
def getSortIndex (line : String) : Nat :=
  match tflLines.findIdx? (fun l => l == line) with
  | some i => i
  | none => tflLines.length

/-- Helper for `distinctFirst`: keeps each element not already seen,
first occurrences in order, threading the set of seen elements. -/
def distinctFirstAux (seen : List String) : List String → List String
  | [] => []
  | a :: l =>
    if a ∈ seen then distinctFirstAux seen l
    else a :: distinctFirstAux (a :: seen) l

/-- First-occurrence deduplication, modelling `[...new Set(xs)]`. -/
def distinctFirst (l : List String) : List String :=
  distinctFirstAux [] l

/-- The comparator used to sort the exported `lines` value
(src/index.ts lines 145–152); `lc` models `a.localeCompare(b, 'en-GB')`. -/
def lineCmp (lc : String → String → Int) (a b : String) : Int :=
  let a_index : Int := getSortIndex a
  let b_index : Int := getSortIndex b
  if a_index = b_index then
    (if a = b then 0 else lc a b)
  else
    a_index - b_index

/-- The "sorts no later than" relation induced by `lineCmp`. -/
def lineLE (lc : String → String → Int) (a b : String) : Prop :=
  lineCmp lc a b ≤ 0

instance lineLEDecidable (lc : String → String → Int) :
    DecidableRel (lineLE lc) :=
  fun a b => Int.decLe (lineCmp lc a b) 0

/-- The exported `lines` value: the distinct lines across the catalogue,
sorted by the composite comparator.  JS `Array.prototype.sort` with a
consistent comparator is modelled as a stable insertion sort with respect
to the induced order. -/
def lines (stations : List Station) (lc : String → String → Int) :
    List String :=
  List.insertionSort (lineLE lc)
    (distinctFirst (stations.flatMap (fun station => station.lines)))

/-- The private helper `match` of src/index.ts (renamed because `match`
is a Lean keyword): an absent criterion always passes; a present one
passes iff some requested value occurs in the station's data
(`input.some(element => data.includes(element))`). -/
def matchCriterion {T : Type} [DecidableEq T]
    (input : Option (List T)) (data : List T) : Bool :=
  match input with
  | none => true
  | some l => l.any (fun element => decide (element ∈ data))

/-- `getBasket`: all catalogue stations matching the given optional
criteria sets. -/
def getBasket (stations : List Station)
    (zones : Option (List Int)) (modes : Option (List Mode))
    (riverBanks : Option (List RiverBank)) (lines : Option (List String)) :
    List Station :=
  stations.filter (fun station =>
    matchCriterion zones station.zones
      && matchCriterion modes station.modes
      && matchCriterion riverBanks station.riverBanks
      && matchCriterion lines station.lines)

/-- `exclude`: stations of `basket` not identity-equal to any member of
the exclusion list (the second parameter is also named `exclude` in the
source). -/
def exclude (basket : List Station) (excluded : List Station) :
    List Station :=
  basket.filter (fun station =>
    !(excluded.any (fun selectedStation =>
      selectedStation.toString == station.toString)))

/-- `fromString`: the first catalogue station with the given identity
string, or `none` (JS `?? null`). -/
def fromString (stations : List Station) (id : String) : Option Station :=
  stations.find? (fun station => station.toString == id)

/-- The two `RangeError`s thrown by `generate`. -/
inductive GenError where
  | insufficientCandidates
  | startingStationNotFound
deriving DecidableEq, Repr

/-- `generate`: draw `count` stations from `basket`, optionally anchored
at `startingStation`; `shuffle` models the external `array-shuffle`
capability. -/
def generate (shuffle : List Station → List Station) (count : Nat)
    (basket : List Station) (startingStation : Option Station) :
    Except GenError (List Station) :=
  if basket.length < count then
    Except.error GenError.insufficientCandidates
  else
    let results : List Station :=
      match startingStation with
      | none => shuffle basket
      | some s =>
        s :: shuffle (basket.filter (fun station =>
          station.toString != s.toString))
    if results.length ≠ basket.length then
      Except.error GenError.startingStationNotFound
    else
      Except.ok (results.take count)

/-! ## Helper lemmas -/

lemma generate_none_def (shuffle : List Station → List Station)
    (count : Nat) (basket : List Station) :
    generate shuffle count basket none =
      (if basket.length < count then
        Except.error GenError.insufficientCandidates
      else if (shuffle basket).length ≠ basket.length then
        Except.error GenError.startingStationNotFound
      else
        Except.ok ((shuffle basket).take count)) := rfl

lemma generate_some_def (shuffle : List Station → List Station)
    (count : Nat) (basket : List Station) (s : Station) :
    generate shuffle count basket (some s) =
      (if basket.length < count then
        Except.error GenError.insufficientCandidates
      else if (s :: shuffle (basket.filter (fun station =>
          station.toString != s.toString))).length ≠ basket.length then
        Except.error GenError.startingStationNotFound
      else
        Except.ok ((s :: shuffle (basket.filter (fun station =>
          station.toString != s.toString))).take count)) := rfl

lemma length_filter_ne_add_count (basket : List Station) (s0 : String) :
    (basket.filter (fun station => station.toString != s0)).length
      + (basket.map Station.toString).count s0 = basket.length := by
  induction basket with
  | nil => simp
  | cons b t ih =>
    by_cases hb : b.toString = s0
    · simp only [List.filter_cons, List.map_cons, List.count_cons, hb,
        bne_self_eq_false, Bool.false_eq_true, if_false, beq_self_eq_true,
        if_true, List.length_cons]
      omega
    · simp only [List.filter_cons, List.map_cons, List.count_cons,
        bne_iff_ne, ne_eq, hb, not_false_eq_true, if_true,
        List.length_cons, beq_iff_eq, if_false]
      omega

lemma matchCriterion_true_iff {T : Type} [DecidableEq T]
    (input : Option (List T)) (data : List T) :
    matchCriterion input data = true ↔
      (input = none ∨ ∃ e ∈ input.getD [], e ∈ data) := by
  cases input with
  | none => simp [matchCriterion]
  | some l => simp [matchCriterion, List.any_eq_true]

/-- Concrete stations used by witnesses below. -/
def stA : Station :=
  ⟨"Euston", none, "Camden", ["Northern", "Victoria"], [1],
    [Mode.LU], [RiverBank.NORTH]⟩

/-- A station with the same identity string as `stA` but different
fields. -/
def stA2 : Station :=
  ⟨"Euston", none, "Islington", ["Victoria"], [2],
    [Mode.NR], [RiverBank.NORTH]⟩

/-- A station whose identity differs from `stA` only by disambiguation. -/
def stB : Station :=
  ⟨"Euston", some "Underground", "Camden", ["Northern"], [1],
    [Mode.LU], [RiverBank.NORTH]⟩

def stC : Station :=
  ⟨"Waterloo", none, "Lambeth", ["Jubilee"], [1],
    [Mode.LU, Mode.NR], [RiverBank.SOUTH]⟩

/-! ## Claims -/

/-- Claim C5: `generate` fails with the insufficient-candidates error
exactly when `basket.length < count`; whenever `count ≤ basket.length`
that error is never raised, for every shuffle and optional starting
station. -/
theorem generate_insufficient_error (shuffle : List Station → List Station)
    (count : Nat) (basket : List Station) (startingStation : Option Station) :
    (basket.length < count →
      generate shuffle count basket startingStation =
        Except.error GenError.insufficientCandidates) ∧
    (count ≤ basket.length →
      generate shuffle count basket startingStation ≠
        Except.error GenError.insufficientCandidates) := by
  constructor
  · intro h
    cases startingStation with
    | none => rw [generate_none_def, if_pos h]
    | some s => rw [generate_some_def, if_pos h]
  · intro h hcontra
    cases startingStation with
    | none =>
      rw [generate_none_def, if_neg (by omega)] at hcontra
      split at hcontra <;> simp at hcontra
    | some s =>
      rw [generate_some_def, if_neg (by omega)] at hcontra
      split at hcontra <;> simp at hcontra

/-- Witness for C5 at concrete inputs. -/
theorem generate_insufficient_error_witness :
    generate (fun l => l) 5 [stA, stB, stC] none =
      Except.error GenError.insufficientCandidates ∧
    generate (fun l => l) 2 [stA, stB, stC] none ≠
      Except.error GenError.insufficientCandidates :=
  ⟨(generate_insufficient_error (fun l => l) 5 [stA, stB, stC] none).1
      (by decide),
    (generate_insufficient_error (fun l => l) 2 [stA, stB, stC] none).2
      (by decide)⟩

/-- Claim C6: `exclude` keeps exactly the members of `basket` whose
identity string equals no member of the exclusion list, in basket order;
consequently `exclude basket basket = []` and `exclude basket [] = basket`. -/
theorem exclude_spec (basket : List Station) (excluded : List Station) :
    (exclude basket excluded).Sublist basket ∧
    (∀ st, st ∈ exclude basket excluded ↔
      (st ∈ basket ∧ ∀ t ∈ excluded, t.toString ≠ st.toString)) ∧
    exclude basket basket = [] ∧
    exclude basket [] = basket := by
  refine ⟨List.filter_sublist basket, ?_, ?_, ?_⟩
  · intro st
    simp [exclude, List.mem_filter, List.any_eq_true]
  · unfold exclude
    rw [List.filter_eq_nil_iff]
    intro st hst
    simp only [Bool.not_eq_true', Bool.not_eq_false, List.any_eq_true]
    exact ⟨st, hst, by simp⟩
  · unfold exclude
    simp

/-- Claim C7: `fromString` applied to the identity of a catalogue member
returns the first catalogue station with that identity; applied to an
identity matching no catalogue station it returns `none`. -/
theorem fromString_spec (stations : List Station) (s : Station)
    (id : String) :
    (s ∈ stations →
      ∃ t l1 l2, fromString stations s.toString = some t ∧
        t.toString = s.toString ∧
        stations = l1 ++ t :: l2 ∧
        ∀ u ∈ l1, u.toString ≠ s.toString) ∧
    ((∀ t ∈ stations, t.toString ≠ id) → fromString stations id = none) := by
  constructor
  · intro hs
    induction stations with
    | nil => cases hs
    | cons b t ih =>
      by_cases hb : b.toString = s.toString
      · refine ⟨b, [], t, ?_, hb, by simp, by simp⟩
        unfold fromString
        exact List.find?_cons_of_pos _ (by simpa using hb)
      · have hst : s ∈ t := by
          rcases List.mem_cons.1 hs with h | h
          · exact absurd (h ▸ rfl) (Ne.symm hb)
          · exact h
        obtain ⟨u, l1, l2, hfind, hu, hsplit, hnone⟩ := ih hst
        refine ⟨u, b :: l1, l2, ?_, hu, by simp [hsplit], ?_⟩
        · unfold fromString
          rw [List.find?_cons_of_neg _ (by simpa using hb)]
          exact hfind
        · intro v hv
          rcases List.mem_cons.1 hv with h | h
          · exact h ▸ hb
          · exact hnone v h
  · intro hnone
    unfold fromString
    rw [List.find?_eq_none]
    intro st hst
    simpa using hnone st hst

/-- Witness for C7 at a concrete catalogue. -/
theorem fromString_spec_witness :
    (∃ t l1 l2, fromString [stA, stC] stC.toString = some t ∧
      t.toString = stC.toString ∧
      [stA, stC] = l1 ++ t :: l2 ∧
      ∀ u ∈ l1, u.toString ≠ stC.toString) ∧
    fromString [stA, stC] "Nowhere" = none :=
  ⟨(fromString_spec [stA, stC] stC "Nowhere").1 (by decide),
    (fromString_spec [stA, stC] stC "Nowhere").2 (by decide)⟩

/-- Claim C3: `getBasket` returns exactly the catalogue stations, in
catalogue order, passing every dimension test (absent argument, or a
shared element between the argument set and the station's value set);
an empty set on any dimension yields an empty result, and no arguments
at all return the full catalogue. -/
theorem getBasket_spec (stations : List Station)
    (zs : Option (List Int)) (ms : Option (List Mode))
    (rs : Option (List RiverBank)) (ls : Option (List String)) :
    (getBasket stations zs ms rs ls).Sublist stations ∧
    (∀ st, st ∈ getBasket stations zs ms rs ls ↔
      (st ∈ stations ∧
        (zs = none ∨ ∃ z ∈ zs.getD [], z ∈ st.zones) ∧
        (ms = none ∨ ∃ m ∈ ms.getD [], m ∈ st.modes) ∧
        (rs = none ∨ ∃ r ∈ rs.getD [], r ∈ st.riverBanks) ∧
        (ls = none ∨ ∃ l ∈ ls.getD [], l ∈ st.lines))) ∧
    getBasket stations (some []) ms rs ls = [] ∧
    getBasket stations zs (some []) rs ls = [] ∧
    getBasket stations zs ms (some []) ls = [] ∧
    getBasket stations zs ms rs (some []) = [] ∧
    getBasket stations none none none none = stations := by
  refine ⟨List.filter_sublist stations, ?_, ?_, ?_, ?_, ?_, ?_⟩
  · intro st
    simp only [getBasket, List.mem_filter, Bool.and_eq_true,
      matchCriterion_true_iff]
    tauto
  · unfold getBasket
    rw [List.filter_eq_nil_iff]
    intro st hst
    simp [matchCriterion]
  · unfold getBasket
    rw [List.filter_eq_nil_iff]
    intro st hst
    simp [matchCriterion]
  · unfold getBasket
    rw [List.filter_eq_nil_iff]
    intro st hst
    simp [matchCriterion]
  · unfold getBasket
    rw [List.filter_eq_nil_iff]
    intro st hst
    simp [matchCriterion]
  · unfold getBasket
    simp [matchCriterion]

/-- Claim C4: when `count ≤ basket.length` and the provided starting
station's identity equals no member of the basket, `generate` fails with
the starting-station-not-found error (via the full-length consistency
check), for every shuffle satisfying the permutation contract. -/
theorem generate_start_missing_error
    (shuffle : List Station → List Station)
    (hshuffle : ∀ l, (shuffle l).Perm l)
    (count : Nat) (basket : List Station) (startingStation : Station)
    (hcount : count ≤ basket.length)
    (hno : startingStation.toString ∉ basket.map Station.toString) :
    generate shuffle count basket (some startingStation) =
      Except.error GenError.startingStationNotFound := by
  have hcount0 :
      (basket.map Station.toString).count startingStation.toString = 0 :=
    List.count_eq_zero.2 hno
  have hlenf := length_filter_ne_add_count basket startingStation.toString
  have hslen := (hshuffle (basket.filter (fun station =>
    station.toString != startingStation.toString))).length_eq
  rw [generate_some_def, if_neg (by omega), if_pos (by
    simp only [List.length_cons, hslen]
    omega)]

/-- Witness for C4 at a concrete basket. -/
theorem generate_start_missing_error_witness :
    generate (fun l => l) 1 [stC] (some stA) =
      Except.error GenError.startingStationNotFound :=
  generate_start_missing_error (fun l => l) (fun l => List.Perm.refl l)
    1 [stC] stA (by decide) (by decide)

/-- Claim C9: when the provided starting station's identity occurs in
two or more members of the basket and `count ≤ basket.length`,
`generate` fails with the starting-station-not-found error, because
removing all identity matches leaves the reconstructed sequence shorter
than the basket. -/
theorem generate_duplicate_start_error
    (shuffle : List Station → List Station)
    (hshuffle : ∀ l, (shuffle l).Perm l)
    (count : Nat) (basket : List Station) (startingStation : Station)
    (hcount : count ≤ basket.length)
    (hdup : 2 ≤ (basket.map Station.toString).count
      startingStation.toString) :
    generate shuffle count basket (some startingStation) =
      Except.error GenError.startingStationNotFound := by
  have hlenf := length_filter_ne_add_count basket startingStation.toString
  have hslen := (hshuffle (basket.filter (fun station =>
    station.toString != startingStation.toString))).length_eq
  rw [generate_some_def, if_neg (by omega), if_pos (by
    simp only [List.length_cons, hslen]
    omega)]

/-- Witness for C9 at a concrete basket containing two stations with the
starting station's identity. -/
theorem generate_duplicate_start_error_witness :
    generate (fun l => l) 2 [stA, stA2] (some stA) =
      Except.error GenError.startingStationNotFound :=
  generate_duplicate_start_error (fun l => l) (fun l => List.Perm.refl l)
    2 [stA, stA2] stA (by decide) (by decide)

/-- Claim C1 (amended): for a basket whose members' identity strings are
pairwise distinct, a count with `1 ≤ count ≤ basket.length`, and a
starting station whose identity equals that of some member, `generate`
succeeds with exactly `count` stations: the first element is the starting
station (hence carries its identity), the identity strings of the result
are pairwise distinct and all drawn from the basket's identities, and the
result is the starting station followed by a shuffle of the basket minus
the starting station (by identity), truncated to `count`. -/
theorem generate_with_start_spec
    (shuffle : List Station → List Station)
    (hshuffle : ∀ l, (shuffle l).Perm l)
    (count : Nat) (basket : List Station) (startingStation : Station)
    (hnodup : (basket.map Station.toString).Nodup)
    (hmem : startingStation.toString ∈ basket.map Station.toString)
    (hone : 1 ≤ count) (hcount : count ≤ basket.length) :
    ∃ out,
      generate shuffle count basket (some startingStation) =
        Except.ok out ∧
      out.length = count ∧
      out.head? = some startingStation ∧
      (out.map Station.toString).Nodup ∧
      (∀ st ∈ out, st.toString ∈ basket.map Station.toString) ∧
      out = (startingStation :: shuffle (basket.filter (fun station =>
        station.toString != startingStation.toString))).take count := by
  have hcnt1 :
      (basket.map Station.toString).count startingStation.toString = 1 :=
    List.count_eq_one_of_mem hnodup hmem
  have hlenf := length_filter_ne_add_count basket startingStation.toString
  have hslen : (shuffle (basket.filter (fun station =>
      station.toString != startingStation.toString))).length =
      (basket.filter (fun station =>
        station.toString != startingStation.toString)).length :=
    (hshuffle _).length_eq
  rw [generate_some_def,
    if_neg (show ¬ basket.length < count by omega),
    if_neg (show ¬ (startingStation :: shuffle (basket.filter
        (fun station =>
          station.toString != startingStation.toString))).length ≠
        basket.length by
      simp only [List.length_cons, hslen]
      omega)]
  have hpermmap : ((shuffle (basket.filter (fun station =>
      station.toString != startingStation.toString))).map
        Station.toString).Perm
      ((basket.filter (fun station =>
        station.toString != startingStation.toString)).map
          Station.toString) :=
    (hshuffle _).map Station.toString
  refine ⟨_, rfl, ?_, ?_, ?_, ?_, rfl⟩
  · simp only [List.length_take, List.length_cons, hslen]
    omega
  · rw [List.head?_take, if_neg (show ¬ count = 0 by omega)]
    rfl
  · refine ((List.take_sublist count _).map Station.toString).nodup ?_
    simp only [List.map_cons, List.nodup_cons]
    constructor
    · intro hx
      obtain ⟨st, hst, heq⟩ := List.mem_map.1 (hpermmap.mem_iff.1 hx)
      have hst2 := List.mem_filter.1 hst
      rw [bne_iff_ne] at hst2
      exact hst2.2 heq
    · exact hpermmap.nodup_iff.mpr
        (((List.filter_sublist basket).map Station.toString).nodup hnodup)
  · intro st hst
    rcases List.mem_cons.1 (List.take_subset count _ hst) with h | h
    · exact h ▸ hmem
    · exact List.mem_map_of_mem Station.toString
        (List.mem_filter.1 ((hshuffle _).mem_iff.1 h)).1

/-- Witness for (amended) C1 at a concrete basket. -/
theorem generate_with_start_spec_witness :
    ∃ out,
      generate (fun l => l) 2 [stA, stC] (some stA) = Except.ok out ∧
      out.length = 2 ∧
      out.head? = some stA ∧
      (out.map Station.toString).Nodup ∧
      (∀ st ∈ out, st.toString ∈ [stA, stC].map Station.toString) ∧
      out = (stA :: [stA, stC].filter (fun station =>
        station.toString != stA.toString)).take 2 :=
  generate_with_start_spec (fun l => l) (fun l => List.Perm.refl l)
    2 [stA, stC] stA (by decide) (by decide) (by decide) (by decide)

/-- Counterexample to C1 as frozen: with the identity function as the
shuffle (a valid permutation) and a basket containing two stations whose
identity equals the starting station's, all of the claim's premises hold
(`1 ≤ count ≤ basket.length`, the starting station's identity occurs in
the basket), yet `generate` does not return a sequence at all — it fails
with the starting-station-not-found error. -/
theorem generate_with_start_counterexample :
    1 ≤ ([stA, stA2] : List Station).length ∧
    stA.toString ∈ [stA, stA2].map Station.toString ∧
    generate (fun l => l) 1 [stA, stA2] (some stA) =
      Except.error GenError.startingStationNotFound :=
  ⟨by decide, by decide, rfl⟩

/-- Claim C2 (amended): with no starting station and
`count ≤ basket.length`, `generate` returns the first `count` elements
of the shuffled basket (a permutation of the entire basket): the result
has exactly `count` elements, all members of the basket, and its
elements are pairwise distinct provided the basket itself has no
duplicate element. -/
theorem generate_no_start_spec
    (shuffle : List Station → List Station)
    (hshuffle : ∀ l, (shuffle l).Perm l)
    (count : Nat) (basket : List Station)
    (hcount : count ≤ basket.length) :
    ∃ out,
      generate shuffle count basket none = Except.ok out ∧
      out.length = count ∧
      (∀ st ∈ out, st ∈ basket) ∧
      (shuffle basket).Perm basket ∧
      out = (shuffle basket).take count ∧
      (basket.Nodup → out.Nodup) := by
  have hslen := (hshuffle basket).length_eq
  rw [generate_none_def,
    if_neg (show ¬ basket.length < count by omega),
    if_neg (show ¬ (shuffle basket).length ≠ basket.length by omega)]
  refine ⟨_, rfl, ?_, ?_, hshuffle basket, rfl, ?_⟩
  · simp only [List.length_take, hslen]
    omega
  · intro st hst
    exact (hshuffle basket).mem_iff.1 (List.take_subset count _ hst)
  · intro hnd
    exact (List.take_sublist count _).nodup
      ((hshuffle basket).nodup_iff.mpr hnd)

/-- Witness for (amended) C2 at a concrete basket. -/
theorem generate_no_start_spec_witness :
    ∃ out,
      generate (fun l => l) 1 [stA, stC] none = Except.ok out ∧
      out.length = 1 ∧
      (∀ st ∈ out, st ∈ [stA, stC]) ∧
      ([stA, stC] : List Station).Perm [stA, stC] ∧
      out = ([stA, stC] : List Station).take 1 ∧
      (([stA, stC] : List Station).Nodup → out.Nodup) :=
  generate_no_start_spec (fun l => l) (fun l => List.Perm.refl l)
    1 [stA, stC] (by decide)

/-- Counterexample to C2 as frozen: with the identity function as the
shuffle (a valid permutation of its input) and a basket containing the
same station twice, `generate` succeeds but its result is not pairwise
distinct. -/
theorem generate_no_start_counterexample :
    ((fun (l : List Station) => l) [stA, stA]).Perm [stA, stA] ∧
    2 ≤ ([stA, stA] : List Station).length ∧
    generate (fun l => l) 2 [stA, stA] none = Except.ok [stA, stA] ∧
    ¬ ([stA, stA] : List Station).Nodup :=
  ⟨List.Perm.refl _, by decide, rfl, by decide⟩

/-- Claim C10: whenever `generate` succeeds with a starting station and
`count ≥ 1`, element 0 of the result is the starting-station argument
value itself (hence every field comes from the argument), and no element
of the rest of the result carries the starting station's identity (in
particular the identity-matching basket member does not appear there). -/
theorem generate_head_is_argument
    (shuffle : List Station → List Station)
    (hshuffle : ∀ l, (shuffle l).Perm l)
    (count : Nat) (basket : List Station) (startingStation : Station)
    (out : List Station)
    (hone : 1 ≤ count)
    (hok : generate shuffle count basket (some startingStation) =
      Except.ok out) :
    out.head? = some startingStation ∧
    ∀ st ∈ out.tail, st.toString ≠ startingStation.toString := by
  rw [generate_some_def] at hok
  by_cases h1 : basket.length < count
  · rw [if_pos h1] at hok
    exact absurd hok (by simp)
  rw [if_neg h1] at hok
  by_cases h2 : (startingStation :: shuffle (basket.filter
      (fun station =>
        station.toString != startingStation.toString))).length ≠
      basket.length
  · rw [if_pos h2] at hok
    exact absurd hok (by simp)
  rw [if_neg h2] at hok
  have hout : out = (startingStation :: shuffle (basket.filter
      (fun station =>
        station.toString != startingStation.toString))).take count :=
    (Except.ok.inj hok).symm
  obtain ⟨n, rfl⟩ : ∃ n, count = n + 1 := ⟨count - 1, by omega⟩
  rw [List.take_succ_cons] at hout
  subst hout
  refine ⟨rfl, ?_⟩
  intro st hst
  have hf := (hshuffle _).mem_iff.1 (List.take_subset n _ hst)
  have hst2 := List.mem_filter.1 hf
  rw [bne_iff_ne] at hst2
  exact hst2.2

/-- Witness for C10: the starting station argument `stA2` shares its
identity with the basket member `stA` but differs in its other fields;
the successful result starts with the argument value itself and the
matched member appears nowhere else. -/
theorem generate_head_is_argument_witness :
    ([stA2, stC] : List Station).head? = some stA2 ∧
    ∀ st ∈ ([stA2, stC] : List Station).tail,
      st.toString ≠ stA2.toString :=
  generate_head_is_argument (fun l => l) (fun l => List.Perm.refl l)
    2 [stA, stC] stA2 [stA2, stC] (by decide) rfl

lemma mem_distinctFirstAux (a : String) (seen l : List String) :
    a ∈ distinctFirstAux seen l ↔ (a ∈ l ∧ a ∉ seen) := by
  induction l generalizing seen with
  | nil => simp [distinctFirstAux]
  | cons b t ih =>
    by_cases hb : b ∈ seen
    · simp only [distinctFirstAux, if_pos hb, ih, List.mem_cons]
      by_cases hab : a = b
      · subst hab
        simp [hb]
      · simp [hab]
    · simp only [distinctFirstAux, if_neg hb, List.mem_cons, ih]
      by_cases hab : a = b
      · subst hab
        simp [hb]
      · simp [hab]

lemma nodup_distinctFirstAux (seen l : List String) :
    (distinctFirstAux seen l).Nodup := by
  induction l generalizing seen with
  | nil => simp [distinctFirstAux]
  | cons b t ih =>
    by_cases hb : b ∈ seen
    · simpa only [distinctFirstAux, if_pos hb] using ih seen
    · simp only [distinctFirstAux, if_neg hb, List.nodup_cons]
      refine ⟨?_, ih (b :: seen)⟩
      intro hmem
      exact ((mem_distinctFirstAux b (b :: seen) t).1 hmem).2
        (List.mem_cons_self b seen)

lemma mem_distinctFirst (a : String) (l : List String) :
    a ∈ distinctFirst l ↔ a ∈ l := by
  simp [distinctFirst, mem_distinctFirstAux]

lemma nodup_distinctFirst (l : List String) :
    (distinctFirst l).Nodup :=
  nodup_distinctFirstAux [] l

lemma lineLE_total (lc : String → String → Int)
    (htotal : ∀ a b, lc a b ≤ 0 ∨ lc b a ≤ 0) :
    ∀ a b, lineLE lc a b ∨ lineLE lc b a := by
  intro a b
  simp only [lineLE, lineCmp]
  by_cases hidx : ((getSortIndex a : Int)) = ((getSortIndex b : Int))
  · rw [if_pos hidx, if_pos hidx.symm]
    by_cases hab : a = b
    · subst hab
      simp
    · rw [if_neg hab, if_neg (Ne.symm hab)]
      exact htotal a b
  · rw [if_neg hidx, if_neg (fun h => hidx h.symm)]
    omega

lemma lineLE_trans (lc : String → String → Int)
    (htrans : ∀ a b c, lc a b ≤ 0 → lc b c ≤ 0 → lc a c ≤ 0) :
    ∀ a b c, lineLE lc a b → lineLE lc b c → lineLE lc a c := by
  intro a b c hab hbc
  simp only [lineLE, lineCmp] at hab hbc ⊢
  by_cases h1 : ((getSortIndex a : Int)) = ((getSortIndex b : Int))
  · by_cases h2 : ((getSortIndex b : Int)) = ((getSortIndex c : Int))
    · rw [if_pos h1] at hab
      rw [if_pos h2] at hbc
      rw [if_pos (h1.trans h2)]
      by_cases hab2 : a = b
      · subst hab2
        exact hbc
      · rw [if_neg hab2] at hab
        by_cases hbc2 : b = c
        · subst hbc2
          rw [if_neg hab2]
          exact hab
        · rw [if_neg hbc2] at hbc
          by_cases hac : a = c
          · rw [if_pos hac]
          · rw [if_neg hac]
            exact htrans a b c hab hbc
    · rw [if_neg h2] at hbc
      rw [if_neg (show ¬ ((getSortIndex a : Int)) =
        ((getSortIndex c : Int)) by omega)]
      omega
  · rw [if_neg h1] at hab
    by_cases h2 : ((getSortIndex b : Int)) = ((getSortIndex c : Int))
    · rw [if_neg (show ¬ ((getSortIndex a : Int)) =
        ((getSortIndex c : Int)) by omega)]
      omega
    · rw [if_neg h2] at hbc
      rw [if_neg (show ¬ ((getSortIndex a : Int)) =
        ((getSortIndex c : Int)) by omega)]
      omega

/-- A two-station catalogue used for the line-ordering example. -/
def exampleStations : List Station :=
  [⟨"A", none, "LA", ["Victoria", "Circle"], [1],
      [Mode.LU], [RiverBank.NORTH]⟩,
    ⟨"B", none, "LA", ["Zigzag Line", "Circle"], [1],
      [Mode.LU], [RiverBank.NORTH]⟩]

/-- Claim C8: for every catalogue and every collation comparator forming
a total preorder (the contract of en-GB `localeCompare`), the `lines`
value consists of exactly the distinct line names appearing across all
stations, pairwise distinct, sorted by the composite key (primary:
position in `tflLines`, with absent lines at the sentinel position
`tflLines.length`; secondary: the locale comparator); on a catalogue
whose lines are Victoria, Circle and Zigzag Line the output is
`["Circle", "Victoria", "Zigzag Line"]`. -/
theorem lines_sorted_spec (stations : List Station)
    (lc : String → String → Int)
    (htrans : ∀ a b c, lc a b ≤ 0 → lc b c ≤ 0 → lc a c ≤ 0)
    (htotal : ∀ a b, lc a b ≤ 0 ∨ lc b a ≤ 0) :
    (∀ l, l ∈ lines stations lc ↔ ∃ st ∈ stations, l ∈ st.lines) ∧
    (lines stations lc).Nodup ∧
    (lines stations lc).Pairwise (fun a b =>
      getSortIndex a < getSortIndex b ∨
        (getSortIndex a = getSortIndex b ∧ lc a b ≤ 0)) ∧
    lines exampleStations lc = ["Circle", "Victoria", "Zigzag Line"] := by
  haveI : IsTrans String (lineLE lc) := ⟨lineLE_trans lc htrans⟩
  haveI : IsTotal String (lineLE lc) := ⟨lineLE_total lc htotal⟩
  have hperm := List.perm_insertionSort (lineLE lc)
    (distinctFirst (stations.flatMap (fun station => station.lines)))
  have hnd : (lines stations lc).Nodup :=
    hperm.nodup_iff.mpr (nodup_distinctFirst _)
  refine ⟨?_, hnd, ?_, ?_⟩
  · intro l
    unfold lines
    rw [hperm.mem_iff, mem_distinctFirst, List.mem_flatMap]
  · have hsorted := List.sorted_insertionSort (lineLE lc)
      (distinctFirst (stations.flatMap (fun station => station.lines)))
    refine List.Pairwise.imp ?_ (List.Pairwise.and hnd hsorted)
    rintro a b ⟨hne, hle⟩
    simp only [lineLE, lineCmp] at hle
    by_cases h : ((getSortIndex a : Int)) = ((getSortIndex b : Int))
    · rw [if_pos h, if_neg hne] at hle
      exact Or.inr ⟨by exact_mod_cast h, hle⟩
    · rw [if_neg h] at hle
      exact Or.inl (by omega)
  · rfl

/-- Witness for C8 using the trivial comparator (a total preorder). -/
theorem lines_sorted_spec_witness :
    (lines exampleStations (fun (_a _b : String) => (0 : Int))).Nodup ∧
    lines exampleStations (fun (_a _b : String) => (0 : Int)) =
      ["Circle", "Victoria", "Zigzag Line"] :=
  ⟨(lines_sorted_spec exampleStations (fun (_a _b : String) => (0 : Int))
      (fun _a _b _c h1 _h2 => h1) (fun _a _b => Or.inl (Int.le_refl 0))).2.1,
    (lines_sorted_spec exampleStations (fun (_a _b : String) => (0 : Int))
      (fun _a _b _c h1 _h2 => h1) (fun _a _b => Or.inl (Int.le_refl 0))).2.2.2⟩

/-- Witness for C3: no criteria at all return the full catalogue. -/
theorem getBasket_spec_witness :
    getBasket [stA, stC] none none none none = [stA, stC] :=
  (getBasket_spec [stA, stC] none none none none).2.2.2.2.2.2

/-- Witness for C6 at a concrete basket. -/
theorem exclude_spec_witness :
    exclude [stA, stC] [stA, stC] = [] ∧
    exclude [stA, stC] [] = [stA, stC] :=
  ⟨(exclude_spec [stA, stC] [stA, stC]).2.2.1,
    (exclude_spec [stA, stC] []).2.2.2⟩
